import Mathlib

attribute [local semireducible] Rat.add Rat.mul Rat.inv Rat.sub Rat.ofScientific

/-!
Shallow embedding of the air-quality dashboard (`src/dashboard/app.py`).

The repository is a single Streamlit script.  Its computational core is:
  * `filter_data` — boolean-mask filtering of the loaded dataframe by the
    selected stations and the inclusive date range (lines 56-62, with the
    identical module-level recomputation at lines 119-123);
  * `smooth_data` — dispatch over `series.ewm(span=w, adjust=False).mean()`,
    `series.rolling(window=w).mean()` and an identity fallback (lines 71-77);
  * the session-state machinery: `st.session_state.filtered_data` is
    initialised to the whole dataset (lines 94-97) and replaced by
    `analyze_data` when the Analyse button is clicked (lines 65-68, 137-140);
  * the download button, which serialises `st.session_state.filtered_data`
    with `to_csv(index=False)` (lines 128-135);
  * the main-content guard `len(selected_pollutants) > 0 and
    len(selected_stations)` (line 144) behind which the charts, the
    correlation heatmap and the threshold notifications live;
  * the threshold notification loop (lines 249-264) over `THRESHOLDS`
    (line 81).

Modelling conventions.
  * A dataframe row (`Observation`) carries the station name, the datetime
    and one optional rational per pollutant column; `none` models a missing
    (NaN) cell and `Option ℚ` replaces the Python float.
  * The datetime is a pair (date component, time-of-day component): the
    filter compares `datetime.dt.date` only, the CSV export serialises the
    full datetime.
  * Pandas `Series.ewm(span=w, adjust=False).mean()` (default
    `ignore_na=False`, `min_periods=0`) is embedded by its exact recursion:
    the running state is `none` before the first valid observation and
    otherwise a pair (current mean, accumulated old weight); a NaN
    observation leaves the mean unchanged (the output repeats it) while the
    old weight decays by `1 - alpha`; a valid observation yields
    `(oldWt * (1-alpha) * mean + alpha * x) / (oldWt * (1-alpha) + alpha)`
    and resets the old weight to 1.  With `span = w`, `alpha = 2 / (w + 1)`.
  * Pandas `Series.rolling(window=w).mean()` (default
    `min_periods = w`) is embedded positionally: the output at index `i` is
    the mean of the `w` trailing cells when `i + 1 ≥ w` and they are all
    present, and missing otherwise.
  * `to_csv(index=False)` / `read_csv` are modelled at the level of the
    tabular grid (header row plus one list of cell strings per row); numeric
    cells are rendered by an injective decimal/fraction rendering with a
    matching parser (the host library's float-formatting details are not
    modelled; what matters for the round-trip claims is that the rendering
    is exactly invertible, which pandas guarantees for its own output).
-/

/-- One dataframe row: station, datetime (date component, time-of-day
component) and the six pollutant columns, each possibly missing (NaN). -/
structure Observation where
  station : String
  datetime : ℤ × ℤ
  pm25 : Option ℚ
  pm10 : Option ℚ
  so2 : Option ℚ
  no2 : Option ℚ
  co : Option ℚ
  o3 : Option ℚ
deriving DecidableEq

/-- Column access `row[pollutant]` for the six pollutant columns.  The
script only ever indexes with one of the six fixed names (the pollutant
multiselect offers exactly these), so the catch-all is never reached from
the embedded operations. -/
def colOf (o : Observation) : String → Option ℚ
  | "PM25" => o.pm25
  | "PM10" => o.pm10
  | "SO2" => o.so2
  | "NO2" => o.no2
  | "CO" => o.co
  | "O3" => o.o3
  | _ => none

/-- `datetime.dt.date`: the date component of the datetime. -/
def dateOf (o : Observation) : ℤ := o.datetime.1

/-- `filter_data` (lines 56-62) and the identical module-level mask
(lines 119-123): keep the rows whose station is in the selected list and
whose date lies in the inclusive range. -/
def filter_data (data : List Observation) (selected_stations : List String)
    (date_range : ℤ × ℤ) : List Observation :=
  data.filter (fun o =>
    selected_stations.contains o.station
      && decide (date_range.1 ≤ dateOf o)
      && decide (dateOf o ≤ date_range.2))

/-- One EWM step of `ewm(span=w, adjust=False).mean()` with
`ignore_na=False`: the state is `none` before the first valid observation,
otherwise `some (mean, oldWt)`. -/
def ewmaStep (alpha : ℚ) : Option (ℚ × ℚ) → Option ℚ → Option (ℚ × ℚ)
  | none, none => none
  | none, some x => some (x, 1)
  | some (avg, oldWt), none => some (avg, oldWt * (1 - alpha))
  | some (avg, oldWt), some x =>
      some ((oldWt * (1 - alpha) * avg + alpha * x) / (oldWt * (1 - alpha) + alpha), 1)

/-- The EWM output stream: at every position the current mean (missing while
no valid observation has been seen, `min_periods` being effectively 1). -/
def ewmAux (alpha : ℚ) (s : Option (ℚ × ℚ)) : List (Option ℚ) → List (Option ℚ)
  | [] => []
  | x :: xs => ((ewmaStep alpha s x).map Prod.fst) :: ewmAux alpha (ewmaStep alpha s x) xs

/-- `series.ewm(span=w, adjust=False).mean()` (line 74). -/
def ewm (alpha : ℚ) (series : List (Option ℚ)) : List (Option ℚ) :=
  ewmAux alpha none series

/-- The rolling-mean cell at index `i` of `series.rolling(window=w).mean()`:
defined only when the trailing window of `w` cells exists and is fully
present (pandas default `min_periods = w`). -/
def smaAt (x : List (Option ℚ)) (w i : ℕ) : Option ℚ :=
  if i + 1 < w then none
  else if ((x.drop (i + 1 - w)).take w).all Option.isSome then
    some ((((x.drop (i + 1 - w)).take w).filterMap id).sum / (w : ℚ))
  else none

/-- `series.rolling(window=w).mean()` (line 76). -/
def sma (x : List (Option ℚ)) (w : ℕ) : List (Option ℚ) :=
  (List.range x.length).map (smaAt x w)

/-- `smooth_data` (lines 71-77): dispatch on the method tag, identity
fallback for unrecognised tags.  `ewm(span=w)` uses `alpha = 2/(w+1)`. -/
def smooth_data (series : List (Option ℚ)) (method : String) (window : ℕ) :
    List (Option ℚ) :=
  if method = "EMA" then ewm (2 / (window + 1 : ℚ)) series
  else if method = "SMA" then sma series window
  else series

/-- The pollutant threshold table `THRESHOLDS` (line 81). -/
def THRESHOLDS : List (String × ℚ) :=
  [("PM25", 150.4), ("NO2", 200), ("PM10", 350), ("SO2", 180), ("CO", 8000), ("O3", 235)]

/-- `pollutant in THRESHOLDS` / `THRESHOLDS[pollutant]` as a lookup. -/
def thresholdOf (p : String) : Option ℚ :=
  THRESHOLDS.lookup p

/-- `Series.max()`: pandas skips NaN cells and returns NaN when no valid
cell exists. -/
def seriesMax : List (Option ℚ) → Option ℚ
  | [] => none
  | none :: xs => seriesMax xs
  | some v :: xs =>
      match seriesMax xs with
      | none => some v
      | some m => some (max v m)

/-- The observable outcome of one iteration of the notification loop
(lines 251-264): an `st.error` plus `st.metric` breach alert, no output at
all, or the `st.success` message of the `else` branch. -/
inductive Notif where
  | errorBreach (maxVal excess : ℚ)
  | noOutput
  | successSafe
deriving DecidableEq

/-- One iteration of the notification loop (lines 251-264) for pollutant
`p` over the analysed view: if `p` has a threshold, compare the column
maximum against it (a missing maximum — empty or all-NaN column — is not
`>` anything, so nothing is emitted); otherwise emit the `st.success`
message. -/
def notification (view : List Observation) (p : String) : Notif :=
  match thresholdOf p with
  | some thr =>
      match seriesMax (view.map (fun o => colOf o p)) with
      | some m => if thr < m then .errorBreach m (m - thr) else .noOutput
      | none => .noOutput
  | none => .successSafe

/-- `st.session_state`: the analysed snapshot and the analysis flag. -/
structure Session where
  filtered_data : List Observation
  analysis_triggered : Bool
deriving DecidableEq

/-- Session-state initialisation (lines 94-97): the snapshot starts as the
whole dataset and the flag as false. -/
def initSession (data : List Observation) : Session :=
  { filtered_data := data, analysis_triggered := false }

/-- `analyze_data` (lines 65-68): snapshot the current filter into the
session state and set the flag. -/
def analyze_data (data : List Observation) (selected_stations : List String)
    (date_range : ℤ × ℤ) : Session :=
  { filtered_data := filter_data data selected_stations date_range
    analysis_triggered := true }

/-- One script rerun as seen by the session state: the sidebar holds some
selection, and the Analyse button either was clicked (running
`analyze_data`, lines 137-140) or was not (leaving the session state as it
is). -/
structure Interaction where
  stations : List String
  range : ℤ × ℤ
  clickAnalyze : Bool
deriving DecidableEq

/-- Effect of one rerun on the session state. -/
def stepSession (data : List Observation) (s : Session) (ev : Interaction) : Session :=
  if ev.clickAnalyze then analyze_data data ev.stations ev.range else s

/-- The session state after a sequence of reruns, starting from the
initialised state. -/
def runSession (data : List Observation) (evs : List Interaction) : Session :=
  evs.foldl (stepSession data) (initSession data)

/-- A full widget/state configuration of the app at one rerun: the loaded
dataset, the current sidebar selections and the session state. -/
structure AppState where
  data : List Observation
  selected_stations : List String
  date_range : ℤ × ℤ
  session : Session
deriving DecidableEq

/-- The module-level `filtered_data` (lines 119-123): the view matching the
current sidebar selections.  (The script computes it on every rerun; the
download button does not use it.) -/
def filtered_data (st : AppState) : List Observation :=
  filter_data st.data st.selected_stations st.date_range

/-- The three shapes of the main content area (lines 143-272): the info
prompt before any analysis, the no-data warning, or the full analysis view
(trend tabs, bar chart, correlation heatmap, summary, notifications). -/
inductive MainView where
  | infoPrompt
  | warnNoData
  | analysisView
deriving DecidableEq

/-- The main-content dispatch: line 143 tests the analysis flag and line
144 tests `len(selected_pollutants) > 0 and len(selected_stations)`. -/
def mainContent (triggered : Bool) (pollutants stations : List String) : MainView :=
  if triggered then
    if 0 < pollutants.length && stations.length != 0 then .analysisView
    else .warnNoData
  else .infoPrompt

/-- Shape of `filtered_data[selected_pollutants].corr()` (line 233): a
square matrix indexed by the selected pollutants on both axes. -/
def corrMatrixShape (pollutants : List String) : ℕ × ℕ :=
  (pollutants.length, pollutants.length)

/-! ### CSV export and re-parsing -/

/-- Little-endian decimal digits of a positive number, as characters; the
first argument is structural fuel (any fuel `≥ n` is exact). -/
def natDigitsAux : ℕ → ℕ → List Char
  | 0, _ => []
  | _, 0 => []
  | fuel + 1, n + 1 => Nat.digitChar ((n + 1) % 10) :: natDigitsAux fuel ((n + 1) / 10)

/-- Decimal rendering of a natural number. -/
def renderNat (n : ℕ) : List Char :=
  if n = 0 then ['0'] else (natDigitsAux n n).reverse

/-- Value of a big-endian list of digit characters. -/
def ofDigitChars (cs : List Char) : ℕ :=
  cs.foldl (fun acc c => acc * 10 + (c.toNat - 48)) 0

/-- Parse a non-empty all-digit character list as a natural number. -/
def parseNat (cs : List Char) : Option ℕ :=
  if cs.isEmpty then none
  else if cs.all Char.isDigit then some (ofDigitChars cs)
  else none

/-- Decimal rendering of an integer (minus sign for negatives). -/
def renderInt (z : ℤ) : List Char :=
  if z < 0 then '-' :: renderNat (-z).toNat else renderNat z.toNat

/-- Parse an optionally minus-signed digit string as an integer. -/
def parseInt (cs : List Char) : Option ℤ :=
  if cs.head? = some '-' then
    match parseNat cs.tail with
    | some n => some (-(n : ℤ))
    | none => none
  else
    match parseNat cs with
    | some n => some ((n : ℤ))
    | none => none

/-- Split a character list at the first occurrence of `c` (`none` when `c`
does not occur). -/
def splitFirst (c : Char) : List Char → Option (List Char × List Char)
  | [] => none
  | x :: xs =>
      if x = c then some ([], xs)
      else (splitFirst c xs).map (fun p => (x :: p.1, p.2))

/-- Injective textual rendering of a rational cell value, numerator and
denominator in decimal. -/
def renderRat (q : ℚ) : List Char :=
  renderInt q.num ++ '/' :: renderNat q.den

/-- Parse the rendering of a rational value. -/
def parseRat (cs : List Char) : Option ℚ :=
  match splitFirst '/' cs with
  | none => none
  | some (a, b) =>
      match parseInt a, parseNat b with
      | some n, some d => some ((n : ℚ) / (d : ℚ))
      | _, _ => none

/-- Render a possibly-missing numeric cell: a NaN cell exports as the empty
field, exactly as `to_csv` leaves missing cells empty. -/
def renderCell (v : Option ℚ) : String :=
  match v with
  | none => ""
  | some q => String.mk (renderRat q)

/-- Parse a possibly-empty numeric cell. -/
def parseCell (s : String) : Option (Option ℚ) :=
  if s.data.isEmpty then some none
  else (parseRat s.data).map some

/-- Render the datetime cell (date component and time-of-day component). -/
def renderDT (dt : ℤ × ℤ) : String :=
  String.mk (renderInt dt.1 ++ 'T' :: renderInt dt.2)

/-- Parse the datetime cell. -/
def parseDT (s : String) : Option (ℤ × ℤ) :=
  match splitFirst 'T' s.data with
  | none => none
  | some (a, b) =>
      match parseInt a, parseInt b with
      | some x, some y => some (x, y)
      | _, _ => none

/-- The header row of the exported CSV: the column layout of the loaded
dataframe. -/
def csvHeader : List String :=
  ["station", "datetime", "PM25", "PM10", "SO2", "NO2", "CO", "O3"]

/-- One exported CSV data row (`index=False`: no index column). -/
def rowOf (o : Observation) : List String :=
  [o.station, renderDT o.datetime, renderCell o.pm25, renderCell o.pm10,
    renderCell o.so2, renderCell o.no2, renderCell o.co, renderCell o.o3]

/-- `to_csv(index=False)` at the level of the tabular grid: the header row
followed by one row of cell strings per observation. -/
def to_csv (d : List Observation) : List (List String) :=
  csvHeader :: d.map rowOf

/-- Parse one data row back into an observation. -/
def parseRow (r : List String) : Option Observation :=
  match r with
  | [s, dt, c1, c2, c3, c4, c5, c6] => do
      let dtv ← parseDT dt
      let v1 ← parseCell c1
      let v2 ← parseCell c2
      let v3 ← parseCell c3
      let v4 ← parseCell c4
      let v5 ← parseCell c5
      let v6 ← parseCell c6
      some ⟨s, dtv, v1, v2, v3, v4, v5, v6⟩
  | _ => none

/-- Parse a list of data rows. -/
def parseRows : List (List String) → Option (List Observation)
  | [] => some []
  | r :: rs =>
      match parseRow r, parseRows rs with
      | some o, some os => some (o :: os)
      | _, _ => none

/-- `read_csv` on an exported grid: check the header row and parse the data
rows. -/
def from_csv (g : List (List String)) : Option (List Observation) :=
  match g with
  | [] => none
  | h :: rows => if h = csvHeader then parseRows rows else none

/-- The download button (lines 128-135): its payload is the serialisation
of `st.session_state.filtered_data`, whatever the current sidebar
selections are. -/
def downloadPayload (st : AppState) : List (List String) :=
  to_csv st.session.filtered_data

/-! ### Specification-side definitions (for refinement claims) -/

/-- Stated from the spec's words: the EMA recurrence
`y[i] = alpha * x[i] + (1 - alpha) * y[i-1]` continuing from a previous
output value. -/
def emaRecAux (alpha prev : ℚ) : List ℚ → List ℚ
  | [] => []
  | x :: xs => (alpha * x + (1 - alpha) * prev) :: emaRecAux alpha (alpha * x + (1 - alpha) * prev) xs

/-- Stated from the spec's words: the EMA recurrence with `y[0] = x[0]`. -/
def emaRecurrence (alpha : ℚ) : List ℚ → List ℚ
  | [] => []
  | x :: xs => x :: emaRecAux alpha x xs

/-- Stated from the spec's words: the arithmetic mean of a list of values. -/
def arithMean (l : List ℚ) : ℚ :=
  l.sum / (l.length : ℚ)

/-- Concrete sample rows used by witnesses and counterexamples. -/
def obsA : Observation :=
  ⟨"Aotizhongxin", (5, 0), some 10, none, none, none, none, none⟩

/-- A second sample row. -/
def obsB : Observation :=
  ⟨"Changping", (7, 1), some 200, some 50, none, none, none, some 80⟩

/-! ### Theorems -/

/-- Helper: a session state over which no Analyse click ever happened is
still the initialised one. -/
theorem runSession_no_click (data : List Observation) :
    ∀ evs : List Interaction, (∀ ev ∈ evs, ev.clickAnalyze = false) →
      runSession data evs = initSession data := by
  intro evs
  induction evs with
  | nil => intro _; rfl
  | cons ev evs ih =>
      intro h
      have h1 : ev.clickAnalyze = false := h ev (List.mem_cons_self ev evs)
      have h2 : ∀ e ∈ evs, e.clickAnalyze = false :=
        fun e he => h e (List.mem_cons_of_mem ev he)
      have hstep : stepSession data (initSession data) ev = initSession data := by
        simp [stepSession, h1]
      simp only [runSession, List.foldl_cons, hstep]
      exact ih h2

/-- C7: for every series, window, and method tag that is neither "EMA" nor
"SMA", `smooth_data` returns the input series unchanged. -/
theorem smooth_data_unknown_method_identity (series : List (Option ℚ)) (method : String)
    (window : ℕ) (h1 : method ≠ "EMA") (h2 : method ≠ "SMA") :
    smooth_data series method window = series := by
  simp [smooth_data, h1, h2]

/-- Witness for C7 at the unrecognised tag "LOESS". -/
theorem smooth_data_unknown_method_identity_witness :
    ("LOESS" : String) ≠ "EMA" ∧ ("LOESS" : String) ≠ "SMA" ∧
      smooth_data [some 1, none, some 3] "LOESS" 7 = [some 1, none, some 3] :=
  ⟨by decide, by decide,
    smooth_data_unknown_method_identity [some 1, none, some 3] "LOESS" 7
      (by decide) (by decide)⟩

/-- C8: a degenerate date range (start after end) yields the empty result,
and an empty station selection yields the empty result (no implicit
select-all). -/
theorem filter_data_empty_cases (data : List Observation) (stations : List String)
    (d0 d1 : ℤ) :
    (d1 < d0 → filter_data data stations (d0, d1) = []) ∧
      (stations = [] → filter_data data stations (d0, d1) = []) := by
  constructor
  · intro h
    refine List.filter_eq_nil_iff.mpr fun o _ => ?_
    simp only [Bool.and_eq_true, decide_eq_true_eq]
    rintro ⟨⟨-, h1⟩, h2⟩
    omega
  · intro h
    subst h
    refine List.filter_eq_nil_iff.mpr fun o _ => ?_
    simp

/-- Witness for C8: a one-row dataset, once with an inverted range and once
with no station selected. -/
theorem filter_data_empty_cases_witness :
    ((0 : ℤ) < 1 ∧ filter_data [obsA] ["Aotizhongxin"] (1, 0) = []) ∧
      filter_data [obsA] [] (0, 9) = [] :=
  ⟨⟨by decide, (filter_data_empty_cases [obsA] ["Aotizhongxin"] 1 0).1 (by decide)⟩,
    (filter_data_empty_cases [obsA] [] 0 9).2 rfl⟩

/-- C9: narrowing the date interval never increases the number of returned
rows, and every filtered result is a sublist of the dataset (the original
order, with no re-sort). -/
theorem filter_data_interval_monotone (data : List Observation) (stations : List String)
    (d0 d1 d0' d1' : ℤ) (hv : d0 ≤ d1) (hv' : d0' ≤ d1')
    (h0 : d0 ≤ d0') (h1 : d1' ≤ d1) :
    (filter_data data stations (d0', d1')).length ≤
        (filter_data data stations (d0, d1)).length ∧
      (filter_data data stations (d0', d1')).Sublist data ∧
      (filter_data data stations (d0, d1)).Sublist data := by
  refine ⟨?_, List.filter_sublist data, List.filter_sublist data⟩
  refine List.Sublist.length_le (List.monotone_filter_right data fun o ho => ?_)
  simp only [Bool.and_eq_true, decide_eq_true_eq] at ho ⊢
  exact ⟨⟨ho.1.1, le_trans h0 ho.1.2⟩, le_trans ho.2 h1⟩

/-- Witness for C9: the interval [4,6] inside [0,9] on a two-row dataset. -/
theorem filter_data_interval_monotone_witness :
    (0 : ℤ) ≤ 9 ∧ (4 : ℤ) ≤ 6 ∧ (0 : ℤ) ≤ 4 ∧ (6 : ℤ) ≤ 9 ∧
      ((filter_data [obsA, obsB] ["Aotizhongxin", "Changping"] (4, 6)).length ≤
          (filter_data [obsA, obsB] ["Aotizhongxin", "Changping"] (0, 9)).length ∧
        (filter_data [obsA, obsB] ["Aotizhongxin", "Changping"] (4, 6)).Sublist
          [obsA, obsB] ∧
        (filter_data [obsA, obsB] ["Aotizhongxin", "Changping"] (0, 9)).Sublist
          [obsA, obsB]) :=
  ⟨by decide, by decide, by decide, by decide,
    filter_data_interval_monotone [obsA, obsB] ["Aotizhongxin", "Changping"]
      0 9 4 6 (by decide) (by decide) (by decide) (by decide)⟩

/-- C10: before any Analyse click, the session snapshot is the whole
dataset, so the download control serialises the full dataset whatever the
current sidebar selections are. -/
theorem download_before_analysis_full_dataset (data : List Observation)
    (evs : List Interaction) (h : ∀ ev ∈ evs, ev.clickAnalyze = false)
    (stations : List String) (range : ℤ × ℤ) :
    (runSession data evs).filtered_data = data ∧
      downloadPayload ⟨data, stations, range, runSession data evs⟩ = to_csv data := by
  rw [runSession_no_click data evs h]
  exact ⟨rfl, rfl⟩

/-- Witness for C10: one click-free rerun, then a download under unrelated
current selections. -/
theorem download_before_analysis_full_dataset_witness :
    (∀ ev ∈ [Interaction.mk ["Aotizhongxin"] (0, 5) false], ev.clickAnalyze = false) ∧
      ((runSession [obsA] [Interaction.mk ["Aotizhongxin"] (0, 5) false]).filtered_data
          = [obsA] ∧
        downloadPayload
            ⟨[obsA], ["Wanliu"], (2, 3),
              runSession [obsA] [Interaction.mk ["Aotizhongxin"] (0, 5) false]⟩
          = to_csv [obsA]) :=
  ⟨by decide,
    download_before_analysis_full_dataset [obsA]
      [Interaction.mk ["Aotizhongxin"] (0, 5) false] (by decide) ["Wanliu"] (2, 3)⟩

/-- C1: a pollutant with no threshold entry gets the dedicated `st.success`
outcome of the `else` branch, and a pollutant whose defined threshold is
not exceeded gets no output at all — the two observable states never
coincide. -/
theorem notification_no_threshold_distinct (p : String) (view : List Observation)
    (hp : thresholdOf p = none) (q : String) (view' : List Observation) (thr m : ℚ)
    (hq : thresholdOf q = some thr)
    (hm : seriesMax (view'.map (fun o => colOf o q)) = some m) (hle : m ≤ thr) :
    notification view p = Notif.successSafe ∧
      notification view' q = Notif.noOutput ∧
      notification view p ≠ notification view' q := by
  have e1 : notification view p = Notif.successSafe := by
    simp [notification, hp]
  have e2 : notification view' q = Notif.noOutput := by
    simp [notification, hq, hm, not_lt.mpr hle]
  refine ⟨e1, e2, ?_⟩
  rw [e1, e2]
  decide

/-- Witness for C1: ammonia (no threshold entry) next to PM25 with an
unexceeded threshold. -/
theorem notification_no_threshold_distinct_witness :
    thresholdOf "NH3" = none ∧ thresholdOf "PM25" = some 150.4 ∧
      seriesMax ([obsA].map (fun o => colOf o "PM25")) = some 10 ∧
      (10 : ℚ) ≤ 150.4 ∧
      (notification [] "NH3" = Notif.successSafe ∧
        notification [obsA] "PM25" = Notif.noOutput ∧
        notification [] "NH3" ≠ notification [obsA] "PM25") :=
  ⟨by decide, by decide, by decide, by decide,
    notification_no_threshold_distinct "NH3" [] (by decide) "PM25" [obsA] 150.4 10
      (by decide) (by decide) (by decide)⟩

/-- C3 counterexample: with the analysis triggered, a single selected
pollutant and a nonempty station selection, the guard of line 144 passes,
so the correlation block runs and renders a degenerate 1×1 matrix — no
"correlation undefined" signal exists. -/
theorem single_pollutant_heatmap_rendered :
    mainContent true ["PM25"] ["Aotizhongxin"] = MainView.analysisView ∧
      List.length ["PM25"] < 2 ∧ corrMatrixShape ["PM25"] = (1, 1) := by
  decide

/-- C3 amended: the analysis view (and with it the correlation heatmap) is
rendered exactly when the analysis flag is set and both selections are
nonempty; a single-pollutant selection is not excluded. -/
theorem heatmap_guard_nonempty_only (pollutants stations : List String) :
    mainContent true pollutants stations = MainView.analysisView ↔
      pollutants ≠ [] ∧ stations ≠ [] := by
  cases pollutants with
  | nil => simp [mainContent]
  | cons p ps =>
      cases stations with
      | nil => simp [mainContent]
      | cons s ss => simp [mainContent]

/-- Helper: over an all-present series the EWM recursion starting from a
seen value with weight 1 is exactly the spec's EMA recurrence. -/
theorem ewmAux_map_some (alpha : ℚ) :
    ∀ (xs : List ℚ) (a : ℚ),
      ewmAux alpha (some (a, 1)) (xs.map some) = (emaRecAux alpha a xs).map some := by
  intro xs
  induction xs with
  | nil => intro a; rfl
  | cons x xs ih =>
      intro a
      have hval : ((1 : ℚ) * (1 - alpha) * a + alpha * x) / ((1 : ℚ) * (1 - alpha) + alpha)
          = alpha * x + (1 - alpha) * a := by
        have hd : (1 : ℚ) * (1 - alpha) + alpha = 1 := by ring
        rw [hd, div_one]
        ring
      have hstep : ewmaStep alpha (some (a, 1)) (some x)
          = some (alpha * x + (1 - alpha) * a, 1) := by
        simp only [ewmaStep, hval]
      simp only [List.map_cons, ewmAux, hstep, Option.map_some', emaRecAux]
      exact congrArg _ (ih (alpha * x + (1 - alpha) * a))

/-- C5: on a non-empty all-present series, EMA smoothing equals the spec's
recurrence `y[0] = x[0]`, `y[i] = alpha*x[i] + (1-alpha)*y[i-1]` with
`alpha = 2/(w+1)` (the adjust=False convention, no renormalisation). -/
theorem smooth_data_ema_recurrence (x : List ℚ) (w : ℕ) (hw : 1 ≤ w) (hx : x ≠ []) :
    smooth_data (x.map some) "EMA" w
      = (emaRecurrence (2 / (w + 1 : ℚ)) x).map some := by
  match x with
  | [] => exact absurd rfl hx
  | x0 :: xs =>
      show ewm (2 / (w + 1 : ℚ)) ((x0 :: xs).map some) = _
      simp only [List.map_cons, ewm, ewmAux, ewmaStep, emaRecurrence, Option.map_some']
      exact congrArg _ (ewmAux_map_some (2 / (w + 1 : ℚ)) xs x0)

/-- Witness for C5 on the series [4, 10] with window 3. -/
theorem smooth_data_ema_recurrence_witness :
    1 ≤ 3 ∧ ([(4 : ℚ), 10] ≠ []) ∧
      smooth_data ([(4 : ℚ), 10].map some) "EMA" 3
        = (emaRecurrence (2 / (3 + 1 : ℚ)) [(4 : ℚ), 10]).map some :=
  ⟨by decide, by decide, smooth_data_ema_recurrence [4, 10] 3 (by decide) (by decide)⟩

/-- Helper: the rolling-mean output at a valid index. -/
theorem sma_getElem? (x : List (Option ℚ)) (w i : ℕ) (hi : i < x.length) :
    (sma x w)[i]? = some (smaAt x w i) := by
  unfold sma
  rw [List.getElem?_map, List.getElem?_range hi, Option.map_some']

/-- C6: on an all-present series with window `w ≥ 1`, SMA smoothing
preserves the length, is missing at every index `i < w-1`, and at every
index `i ≥ w-1` is the arithmetic mean of the trailing `w` inputs. -/
theorem smooth_data_sma_mean (x : List ℚ) (w : ℕ) (hw : 1 ≤ w) :
    (smooth_data (x.map some) "SMA" w).length = x.length ∧
      ∀ i, i < x.length →
        (i + 1 < w → (smooth_data (x.map some) "SMA" w)[i]? = some none) ∧
        (w ≤ i + 1 →
          (smooth_data (x.map some) "SMA" w)[i]?
            = some (some (arithMean ((x.drop (i + 1 - w)).take w)))) := by
  have hsmooth : smooth_data (x.map some) "SMA" w = sma (x.map some) w := rfl
  constructor
  · rw [hsmooth]
    simp [sma]
  · intro i hi
    have hi' : i < (x.map some).length := by simpa using hi
    constructor
    · intro hlt
      rw [hsmooth, sma_getElem? (x.map some) w i hi']
      unfold smaAt
      rw [if_pos hlt]
    · intro hge
      rw [hsmooth, sma_getElem? (x.map some) w i hi']
      unfold smaAt
      rw [if_neg (by omega)]
      have hwin : ((x.map some).drop (i + 1 - w)).take w
          = ((x.drop (i + 1 - w)).take w).map some := by
        rw [List.map_take, List.map_drop]
      simp only [hwin]
      have hall : (((x.drop (i + 1 - w)).take w).map some).all Option.isSome = true := by
        rw [List.all_eq_true]
        intro c hc
        rcases List.mem_map.mp hc with ⟨v, _, hv⟩
        rw [← hv]
        rfl
      rw [if_pos hall, List.filterMap_map, Function.id_comp, List.filterMap_some]
      have hlen : ((x.drop (i + 1 - w)).take w).length = w := by
        rw [List.length_take, List.length_drop]
        omega
      unfold arithMean
      rw [hlen]


/-- Witness for C6 on the series [1, 2, 3] with window 2. -/
theorem smooth_data_sma_mean_witness :
    1 ≤ 2 ∧ (smooth_data ([(1 : ℚ), 2, 3].map some) "SMA" 2).length = 3 ∧
      (smooth_data ([(1 : ℚ), 2, 3].map some) "SMA" 2)[0]? = some none ∧
      (smooth_data ([(1 : ℚ), 2, 3].map some) "SMA" 2)[1]?
        = some (some (arithMean (([(1 : ℚ), 2, 3].drop 0).take 2))) :=
  ⟨by decide, (smooth_data_sma_mean [1, 2, 3] 2 (by decide)).1,
    ((smooth_data_sma_mean [1, 2, 3] 2 (by decide)).2 0 (by decide)).1 (by decide),
    ((smooth_data_sma_mean [1, 2, 3] 2 (by decide)).2 1 (by decide)).2 (by decide)⟩

/-- C4 counterexample: for EMA, a missing input after a seen value does NOT
come out missing — the previous smoothed value is carried forward
(`ignore_na=False` leaves the mean in place at a NaN observation). -/
theorem ema_missing_carried_forward :
    [some (1 : ℚ), none][1]? = some none ∧
      smooth_data [some (1 : ℚ), none] "EMA" 2 = [some 1, some 1] ∧
      (smooth_data [some (1 : ℚ), none] "EMA" 2)[1]? ≠ some none := by
  refine ⟨rfl, ?_, ?_⟩ <;> decide

/-- Helper: in the EWM recursion a missing observation repeats the current
mean of the state. -/
theorem ewmAux_missing (alpha : ℚ) :
    ∀ (xs : List (Option ℚ)) (s : Option (ℚ × ℚ)) (i : ℕ),
      xs[i]? = some none →
        (ewmAux alpha s xs)[i]?
          = if i = 0 then some (s.map Prod.fst) else (ewmAux alpha s xs)[i - 1]? := by
  intro xs
  induction xs with
  | nil => intro s i h; simp at h
  | cons x xs ih =>
      intro s i h
      have hunf : ewmAux alpha s (x :: xs)
          = ((ewmaStep alpha s x).map Prod.fst) :: ewmAux alpha (ewmaStep alpha s x) xs := rfl
      match i with
      | 0 =>
          have hx : x = none := by simpa using h
          subst hx
          rw [if_pos rfl, hunf, List.getElem?_cons_zero]
          cases s with
          | none => rfl
          | some p =>
              rcases p with ⟨a, b⟩
              rfl
      | i + 1 =>
          rw [List.getElem?_cons_succ] at h
          rw [if_neg (Nat.succ_ne_zero i), hunf, List.getElem?_cons_succ,
            ih (ewmaStep alpha s x) i h, Nat.add_sub_cancel]
          match i with
          | 0 => rw [if_pos rfl, List.getElem?_cons_zero]
          | j + 1 =>
              rw [if_neg (Nat.succ_ne_zero j), List.getElem?_cons_succ, Nat.add_sub_cancel]

/-- C4 amended: missing inputs are never turned into zeroes, and for SMA
and for unrecognised methods they come out missing at the same position;
for EMA, however, a missing input at position 0 comes out missing, while a
missing input at a later position repeats the previous output value
(carry-forward), exactly as `ewm(..., adjust=False)` with the default
`ignore_na=False` behaves. -/
theorem smooth_data_missing_propagation (x : List (Option ℚ)) (method : String)
    (w : ℕ) (hw : 1 ≤ w) (i : ℕ) (hi : i < x.length) (hmiss : x[i]? = some none) :
    ((smooth_data x "SMA" w)[i]? = some none) ∧
      (method ≠ "EMA" → method ≠ "SMA" → (smooth_data x method w)[i]? = some none) ∧
      ((smooth_data x "EMA" w)[i]?
        = if i = 0 then some none else (smooth_data x "EMA" w)[i - 1]?) := by
  refine ⟨?_, ?_, ?_⟩
  · have hs : smooth_data x "SMA" w = sma x w := rfl
    rw [hs, sma_getElem? x w i hi]
    unfold smaAt
    by_cases hlt : i + 1 < w
    · rw [if_pos hlt]
    · rw [if_neg hlt]
      have hwl : w - 1 < w := by omega
      have hidx : ((x.drop (i + 1 - w)).take w)[w - 1]? = some none := by
        rw [List.getElem?_take, if_pos hwl, List.getElem?_drop]
        have : i + 1 - w + (w - 1) = i := by omega
        rw [this, hmiss]
      have hmem : (none : Option ℚ) ∈ (x.drop (i + 1 - w)).take w :=
        List.getElem?_mem hidx
      have hall : ((x.drop (i + 1 - w)).take w).all Option.isSome = false := by
        by_contra hc
        have hc' : ((x.drop (i + 1 - w)).take w).all Option.isSome = true := by
          revert hc
          cases ((x.drop (i + 1 - w)).take w).all Option.isSome <;> simp
        have := List.all_eq_true.mp hc' none hmem
        simp at this
      rw [hall]
      rfl
  · intro h1 h2
    have hs : smooth_data x method w = x := by simp [smooth_data, h1, h2]
    rw [hs, hmiss]
  · have hs : smooth_data x "EMA" w = ewmAux (2 / (w + 1 : ℚ)) none x := rfl
    rw [hs, ewmAux_missing (2 / (w + 1 : ℚ)) x none i hmiss]
    match i with
    | 0 => simp
    | j + 1 => simp

/-- Witness for C4 on the series [some 1, none] with window 1, at index 1,
with the unrecognised tag "XYZ". -/
theorem smooth_data_missing_propagation_witness :
    1 ≤ 1 ∧ 1 < ([some (1 : ℚ), none]).length ∧ [some (1 : ℚ), none][1]? = some none ∧
      ((smooth_data [some (1 : ℚ), none] "SMA" 1)[1]? = some none ∧
        (("XYZ" : String) ≠ "EMA" → ("XYZ" : String) ≠ "SMA" →
          (smooth_data [some (1 : ℚ), none] "XYZ" 1)[1]? = some none) ∧
        ((smooth_data [some (1 : ℚ), none] "EMA" 1)[1]?
          = if 1 = 0 then some none else (smooth_data [some (1 : ℚ), none] "EMA" 1)[1 - 1]?)) :=
  ⟨by decide, by decide, by decide,
    smooth_data_missing_propagation [some 1, none] "XYZ" 1 (by decide) 1
      (by decide) (by decide)⟩

/-- Helper: decimal digit characters are digits. -/
theorem digitChar_isDigit : ∀ d : ℕ, d < 10 → (Nat.digitChar d).isDigit = true := by
  decide

/-- Helper: character-level inverse of the digit rendering. -/
theorem digitChar_toNat : ∀ d : ℕ, d < 10 → (Nat.digitChar d).toNat - 48 = d := by
  decide

/-- Helper: every character produced by `natDigitsAux` is a digit. -/
theorem natDigitsAux_digits : ∀ fuel n : ℕ, ∀ c ∈ natDigitsAux fuel n, c.isDigit = true := by
  intro fuel
  induction fuel with
  | zero => intro n c hc; simp [natDigitsAux] at hc
  | succ fuel ih =>
      intro n c hc
      match n with
      | 0 => simp [natDigitsAux] at hc
      | n + 1 =>
          simp only [natDigitsAux] at hc
          rcases List.mem_cons.mp hc with h | h
          · subst h
            exact digitChar_isDigit _ (Nat.mod_lt _ (by omega))
          · exact ih _ c h

/-- Helper: folding the digit characters back recovers the value. -/
theorem natDigitsAux_foldl : ∀ fuel n : ℕ, n ≤ fuel → ∀ acc : ℕ,
    List.foldl (fun a c => a * 10 + (c.toNat - 48)) acc (natDigitsAux fuel n).reverse
      = acc * 10 ^ (natDigitsAux fuel n).length + n := by
  intro fuel
  induction fuel with
  | zero =>
      intro n hn acc
      have h0 : n = 0 := Nat.le_zero.mp hn
      subst h0
      simp [natDigitsAux]
  | succ fuel ih =>
      intro n hn acc
      match n with
      | 0 => simp [natDigitsAux]
      | n + 1 =>
          simp only [natDigitsAux, List.reverse_cons, List.foldl_append, List.foldl_cons,
            List.foldl_nil, List.length_cons]
          rw [ih ((n + 1) / 10) (by omega) acc]
          rw [digitChar_toNat _ (Nat.mod_lt _ (by omega))]
          rw [pow_succ, ← mul_assoc]
          generalize acc * 10 ^ (natDigitsAux fuel ((n + 1) / 10)).length = A
          omega

/-- Helper: the rendering of a natural number is never empty. -/
theorem renderNat_ne_nil (n : ℕ) : renderNat n ≠ [] := by
  unfold renderNat
  match n with
  | 0 => simp
  | m + 1 =>
      rw [if_neg (Nat.succ_ne_zero m)]
      simp only [natDigitsAux, ne_eq, List.reverse_eq_nil_iff]
      simp

/-- Helper: the rendering of a natural number is all digit characters. -/
theorem renderNat_all_digits (n : ℕ) : ∀ c ∈ renderNat n, c.isDigit = true := by
  unfold renderNat
  match n with
  | 0 =>
      intro c hc
      have : c = '0' := by simpa using hc
      subst this
      decide
  | m + 1 =>
      rw [if_neg (Nat.succ_ne_zero m)]
      intro c hc
      exact natDigitsAux_digits (m + 1) (m + 1) c (List.mem_reverse.mp hc)

/-- Helper: parsing inverts the natural-number rendering. -/
theorem parseNat_renderNat (n : ℕ) : parseNat (renderNat n) = some n := by
  match n with
  | 0 => decide
  | m + 1 =>
      unfold parseNat
      have hne : renderNat (m + 1) ≠ [] := renderNat_ne_nil (m + 1)
      rw [if_neg (by simpa [List.isEmpty_iff] using hne)]
      rw [if_pos (List.all_eq_true.mpr fun c hc => renderNat_all_digits (m + 1) c hc)]
      congr 1
      unfold ofDigitChars renderNat
      rw [if_neg (Nat.succ_ne_zero m)]
      rw [natDigitsAux_foldl (m + 1) (m + 1) le_rfl 0]
      simp

/-- Helper: the rendering of an integer is never empty. -/
theorem renderInt_ne_nil (z : ℤ) : renderInt z ≠ [] := by
  unfold renderInt
  by_cases hz : z < 0
  · rw [if_pos hz]
    exact List.cons_ne_nil _ _
  · rw [if_neg hz]
    exact renderNat_ne_nil _

/-- Helper: every character of an integer rendering is a digit or the
minus sign. -/
theorem renderInt_chars (z : ℤ) : ∀ c ∈ renderInt z, c.isDigit = true ∨ c = '-' := by
  unfold renderInt
  by_cases hz : z < 0
  · rw [if_pos hz]
    intro c hc
    rcases List.mem_cons.mp hc with h | h
    · exact Or.inr h
    · exact Or.inl (renderNat_all_digits _ c h)
  · rw [if_neg hz]
    intro c hc
    exact Or.inl (renderNat_all_digits _ c hc)

/-- Helper: parsing inverts the integer rendering. -/
theorem parseInt_renderInt (z : ℤ) : parseInt (renderInt z) = some z := by
  unfold parseInt renderInt
  by_cases hz : z < 0
  · rw [if_pos hz]
    have hcond : ('-' :: renderNat (-z).toNat).head? = some '-' := rfl
    rw [if_pos hcond, List.tail_cons]
    simp only [parseNat_renderNat]
    congr 1
    omega
  · rw [if_neg hz]
    have hhead : (renderNat z.toNat).head? ≠ some '-' := by
      cases hh : renderNat z.toNat with
      | nil => simp
      | cons c cs =>
          rw [List.head?_cons]
          intro hcc
          have hceq : c = '-' := by simpa using hcc
          subst hceq
          have hdig := renderNat_all_digits z.toNat '-' (by rw [hh]; exact List.mem_cons_self _ _)
          exact absurd hdig (by decide)
    rw [if_neg hhead]
    simp only [parseNat_renderNat]
    congr 1
    omega

/-- Helper: splitting at the separator recovers both halves when the left
half avoids the separator. -/
theorem splitFirst_append (c : Char) :
    ∀ xs ys : List Char, c ∉ xs → splitFirst c (xs ++ c :: ys) = some (xs, ys) := by
  intro xs
  induction xs with
  | nil =>
      intro ys _
      simp [splitFirst]
  | cons x xs ih =>
      intro ys h
      have hx : x ≠ c := fun he => h (he ▸ List.mem_cons_self x xs)
      have h' : c ∉ xs := fun hm => h (List.mem_cons_of_mem x hm)
      simp only [List.cons_append, splitFirst, List.append_eq]
      rw [if_neg hx, ih ys h']
      rfl

/-- Helper: parsing inverts the rational rendering. -/
theorem parseRat_renderRat (q : ℚ) : parseRat (renderRat q) = some q := by
  unfold parseRat renderRat
  have hnotin : '/' ∉ renderInt q.num := by
    intro hm
    rcases renderInt_chars q.num '/' hm with h | h
    · exact absurd h (by decide)
    · exact absurd h (by decide)
  rw [splitFirst_append '/' (renderInt q.num) (renderNat q.den) hnotin]
  simp only [parseInt_renderInt, parseNat_renderNat]
  rw [Rat.num_div_den]

/-- Helper: parsing inverts the cell rendering. -/
theorem parseCell_renderCell (v : Option ℚ) : parseCell (renderCell v) = some v := by
  cases v with
  | none => rfl
  | some q =>
      unfold parseCell renderCell
      have hdat : (String.mk (renderRat q)).data = renderRat q := rfl
      rw [hdat]
      have hne : (renderRat q).isEmpty = false := by
        unfold renderRat
        cases hh : renderInt q.num with
        | nil => exact absurd hh (renderInt_ne_nil q.num)
        | cons c cs => rfl
      rw [hne]
      rw [if_neg (by simp)]
      rw [parseRat_renderRat]
      rfl

/-- Helper: parsing inverts the datetime rendering. -/
theorem parseDT_renderDT (dt : ℤ × ℤ) : parseDT (renderDT dt) = some dt := by
  unfold parseDT renderDT
  have hdat : (String.mk (renderInt dt.1 ++ 'T' :: renderInt dt.2)).data
      = renderInt dt.1 ++ 'T' :: renderInt dt.2 := rfl
  rw [hdat]
  have hnotin : 'T' ∉ renderInt dt.1 := by
    intro hm
    rcases renderInt_chars dt.1 'T' hm with h | h
    · exact absurd h (by decide)
    · exact absurd h (by decide)
  rw [splitFirst_append 'T' (renderInt dt.1) (renderInt dt.2) hnotin]
  simp only [parseInt_renderInt]

/-- Helper: parsing inverts the row rendering. -/
theorem parseRow_rowOf (o : Observation) : parseRow (rowOf o) = some o := by
  unfold parseRow rowOf
  simp only [parseDT_renderDT, parseCell_renderCell, Option.bind_eq_bind,
    Option.some_bind]

/-- Helper: parsing inverts the rendering of a row list. -/
theorem parseRows_map_rowOf (d : List Observation) : parseRows (d.map rowOf) = some d := by
  induction d with
  | nil => rfl
  | cons o os ih =>
      simp only [List.map_cons, parseRows, parseRow_rowOf o, ih]

/-- Helper: re-parsing an exported grid yields the exported dataset. -/
theorem from_csv_to_csv (d : List Observation) : from_csv (to_csv d) = some d := by
  show (if csvHeader = csvHeader then parseRows (d.map rowOf) else none) = some d
  rw [if_pos rfl]
  exact parseRows_map_rowOf d

/-- C2 counterexample: in the freshly initialised session (lines 94-97)
with no station selected, the download payload serialises the whole
dataset, not the (empty) currently filtered view of the sidebar state. -/
theorem download_not_current_view :
    downloadPayload ⟨[obsA], [], (0, 9), initSession [obsA]⟩
      ≠ to_csv (filtered_data ⟨[obsA], [], (0, 9), initSession [obsA]⟩) := by
  decide

/-- C2 amended: the download control serialises the session snapshot
`st.session_state.filtered_data` — faithfully, in that re-parsing the
export recovers that snapshot exactly — and after an Analyse click the
snapshot is the filter of the selections current at that click. -/
theorem download_serializes_session_view :
    (∀ st : AppState, from_csv (downloadPayload st) = some st.session.filtered_data) ∧
      ∀ (data : List Observation) (evs : List Interaction) (ev : Interaction),
        ev.clickAnalyze = true →
          (runSession data (evs ++ [ev])).filtered_data
            = filter_data data ev.stations ev.range := by
  constructor
  · intro st
    exact from_csv_to_csv st.session.filtered_data
  · intro data evs ev h
    unfold runSession
    rw [List.foldl_append]
    simp only [List.foldl_cons, List.foldl_nil]
    unfold stepSession
    rw [if_pos h]
    rfl

/-- Witness for C2 (amended): a one-row dataset exported from the initial
session, and one Analyse click. -/
theorem download_serializes_session_view_witness :
    from_csv (downloadPayload ⟨[obsA], [], (0, 9), initSession [obsA]⟩) = some [obsA] ∧
      (Interaction.mk ["Aotizhongxin"] (0, 9) true).clickAnalyze = true ∧
      (runSession [obsA] ([] ++ [Interaction.mk ["Aotizhongxin"] (0, 9) true])).filtered_data
        = filter_data [obsA] ["Aotizhongxin"] (0, 9) :=
  ⟨download_serializes_session_view.1 ⟨[obsA], [], (0, 9), initSession [obsA]⟩,
    rfl,
    download_serializes_session_view.2 [obsA] []
      (Interaction.mk ["Aotizhongxin"] (0, 9) true) rfl⟩
